import Mathlib

/-!
Verification development for the archive-movie-browser repository.

The definitions below are shallow embeddings of the JavaScript source:
* `src/services/tmdb.js` — title normalisation (`cleanTitle`), the match
  cache (`getCacheKey` / `getFromCache` / `setCache`), the request
  de-duplicator (`searchMovie` with its `pendingRequests` map), the
  best-match heuristic of `_fetchFromTMDB`, the rate limiter
  (`throttledFetch`), and `hasCachedPoster`;
* `src/services/archive.js` — `parseRuntime`;
* `src/components/VideoPlayerModal.jsx` — the `filteredByRuntime`
  filter pipeline and the append-with-dedup step of `fetchMovies`.

JavaScript strings are modelled as Lean `String`s (ASCII case folding,
matching the characters actually used by the program), JavaScript numbers
as `Int`/`ℚ` (`Option ℚ` where `NaN` can arise), timestamps as `Int`
milliseconds, and the `Map`s as association lists whose lookup finds the
most recent binding, which is observationally the same as `Map.get` after
`Map.set`.  Asynchronous control flow is embedded as explicit small-step
state transitions: the synchronous prefix of `searchMovie` is one step,
the settling of a fetch is another, and the rate limiter is a scheduled
transition system over caller states.
-/

/-! ### JavaScript string primitives -/

/-- Whitespace class of JavaScript regular expressions and `String.prototype.trim`
(the ASCII part, which covers every string the program manipulates). -/
def isJsSpace (c : Char) : Bool :=
  c = ' ' || c = '\t' || c = '\n' || c = '\r' || c = '\x0b' || c = '\x0c'

/-- Word-character class of the JavaScript regex escape for word characters:
ASCII letters, digits and underscore. -/
def isWordChar (c : Char) : Bool :=
  c.isAlphanum || c = '_'

/-- Drop trailing JavaScript whitespace from a character list. -/
def dropTrailingWs (l : List Char) : List Char :=
  (l.reverse.dropWhile isJsSpace).reverse

/-- JavaScript `String.prototype.trim` on a character list. -/
def trimChars (l : List Char) : List Char :=
  dropTrailingWs (l.dropWhile isJsSpace)

/-- JavaScript `String.prototype.trim`. -/
def jsTrim (s : String) : String :=
  String.mk (trimChars s.toList)

/-- JavaScript `String.prototype.toLowerCase` (ASCII case folding). -/
def jsToLower (s : String) : String :=
  String.mk (s.toList.map Char.toLower)

/-! ### Title normaliser (`cleanTitle`, src/services/tmdb.js lines 128-136)

`cleanTitle` applies three anchored regex replacements that strip a
trailing year decoration, then two global replacements, then a trim.
Each anchored replacement removes, when present, the final occurrence of
the decoration together with the whitespace around it; the functions
below implement exactly that leftmost-match-at-end semantics. -/

/-- Replacement for the regex that removes a trailing parenthesised
4-digit year together with surrounding whitespace (anchored at the end of
the string). -/
def stripParenYear (l : List Char) : List Char :=
  let t := dropTrailingWs l
  match t.reverse with
  | ')' :: d1 :: d2 :: d3 :: d4 :: '(' :: rest =>
      if d1.isDigit && d2.isDigit && d3.isDigit && d4.isDigit then
        dropTrailingWs rest.reverse
      else l
  | _ => l

/-- Replacement for the regex that removes a trailing bracketed 4-digit
year together with surrounding whitespace (anchored at the end). -/
def stripBracketYear (l : List Char) : List Char :=
  let t := dropTrailingWs l
  match t.reverse with
  | ']' :: d1 :: d2 :: d3 :: d4 :: '[' :: rest =>
      if d1.isDigit && d2.isDigit && d3.isDigit && d4.isDigit then
        dropTrailingWs rest.reverse
      else l
  | _ => l

/-- Replacement for the regex that removes a trailing dash followed by a
4-digit year, with optional whitespace around the dash and after the year
(anchored at the end). -/
def stripDashYear (l : List Char) : List Char :=
  let t := dropTrailingWs l
  match t.reverse with
  | d1 :: d2 :: d3 :: d4 :: rest =>
      if d1.isDigit && d2.isDigit && d3.isDigit && d4.isDigit then
        match rest.dropWhile isJsSpace with
        | '-' :: rest2 => dropTrailingWs rest2.reverse
        | _ => l
      else l
  | _ => l

/-- Global replacement of every character outside the word/whitespace
classes by a single space (the fourth replacement of `cleanTitle`). -/
def replaceNonWord (l : List Char) : List Char :=
  l.map (fun c => if isWordChar c || isJsSpace c then c else ' ')

/-- Global replacement of every maximal whitespace run by one space (the
fifth replacement of `cleanTitle`).  The boolean records whether the
previous character already emitted a space. -/
def collapseWs : List Char → Bool → List Char
  | [], _ => []
  | c :: cs, prevSpace =>
      if isJsSpace c then
        if prevSpace then collapseWs cs true
        else ' ' :: collapseWs cs true
      else c :: collapseWs cs false

/-- `cleanTitle` from src/services/tmdb.js: strip a trailing
parenthesised year, a trailing bracketed year, a trailing dash-year,
replace special characters by spaces, collapse whitespace runs, trim. -/
def cleanTitle (title : String) : String :=
  String.mk (trimChars (collapseWs (replaceNonWord
    (stripDashYear (stripBracketYear (stripParenYear title.toList)))) false))

/-! ### Runtime parsing (`parseRuntime`, src/services/archive.js lines 106-127)

JavaScript numbers are modelled as `Option ℚ`, with `none` standing for
`NaN`.  `jsNumber` models `Number(part)` on the strings the runtime field
contains: the empty string converts to `0`, a (whitespace-padded) digit
string to its value, and anything else to `NaN`. -/

/-- Numeric value of a list of decimal digit characters. -/
def digitsToNat (l : List Char) : Nat :=
  l.foldl (fun n c => n * 10 + (c.toNat - 48)) 0

/-- Exponent suffix of a JavaScript decimal numeral: an optional sign
followed by a non-empty digit run, scaling the mantissa by the matching
power of ten.  Anything else makes the whole numeral NaN. -/
def applyDecimalExp (base : ℚ) (l : List Char) : Option ℚ :=
  let signed : Bool × List Char :=
    match l with
    | '+' :: r => (false, r)
    | '-' :: r => (true, r)
    | r => (false, r)
  if !signed.2.isEmpty && signed.2.all Char.isDigit then
    some (if signed.1 then base / (10 : ℚ) ^ digitsToNat signed.2
          else base * (10 : ℚ) ^ digitsToNat signed.2)
  else none

/-- Unsigned JavaScript decimal numeral: an integer part and/or a
fractional part, optionally followed by an exponent.  Any leftover
characters make the numeral NaN. -/
def parseUnsignedDecimal (t : List Char) : Option ℚ :=
  let intPart := t.takeWhile Char.isDigit
  let rest := t.dropWhile Char.isDigit
  match rest with
  | [] => if intPart.isEmpty then none else some (digitsToNat intPart : ℚ)
  | '.' :: rest2 =>
      let fracPart := rest2.takeWhile Char.isDigit
      let rest3 := rest2.dropWhile Char.isDigit
      if intPart.isEmpty && fracPart.isEmpty then none
      else
        let base : ℚ :=
          (digitsToNat intPart : ℚ) +
            (digitsToNat fracPart : ℚ) / (10 : ℚ) ^ fracPart.length
        match rest3 with
        | [] => some base
        | 'e' :: rest4 => applyDecimalExp base rest4
        | 'E' :: rest4 => applyDecimalExp base rest4
        | _ => none
  | 'e' :: rest4 =>
      if intPart.isEmpty then none
      else applyDecimalExp (digitsToNat intPart : ℚ) rest4
  | 'E' :: rest4 =>
      if intPart.isEmpty then none
      else applyDecimalExp (digitsToNat intPart : ℚ) rest4
  | _ => none

/-- JavaScript `Number` on the strings split from a runtime field: the
whitespace-trimmed string is read as a finite decimal numeral — empty
gives 0, an optional sign, integer and/or fractional digits, and an
optional exponent give the corresponding rational — and every other
string gives NaN.  Hexadecimal/octal/binary literals and the Infinity
forms denote values outside the rational model and are mapped to NaN. -/
def jsNumberChars (l : List Char) : Option ℚ :=
  let t := trimChars l
  if t.isEmpty then some 0
  else
    match t with
    | '-' :: r => (parseUnsignedDecimal r).map (fun x => -x)
    | '+' :: r => parseUnsignedDecimal r
    | _ => parseUnsignedDecimal t

/-- Split a character list at every occurrence of a separator
(JavaScript `split`: adjacent separators and boundary separators give
empty fields). -/
def splitOnChar (sep : Char) : List Char → List (List Char)
  | [] => [[]]
  | c :: cs =>
      if c = sep then [] :: splitOnChar sep cs
      else
        match splitOnChar sep cs with
        | h :: t => (c :: h) :: t
        | [] => [[c]]

/-- NaN-propagating addition. -/
def jsAdd (a b : Option ℚ) : Option ℚ :=
  match a, b with
  | some x, some y => some (x + y)
  | _, _ => none

/-- NaN-propagating multiplication by a constant. -/
def jsMul (a : Option ℚ) (k : ℚ) : Option ℚ :=
  a.map (fun x => x * k)

/-- NaN-propagating division by a nonzero constant. -/
def jsDiv (a : Option ℚ) (k : ℚ) : Option ℚ :=
  a.map (fun x => x / k)

/-- JavaScript comparison `a < n`: false when `a` is NaN. -/
def jsLtNum (a : Option ℚ) (n : ℚ) : Bool :=
  match a with
  | some x => decide (x < n)
  | none => false

/-- First maximal run of digit characters in a string (the match of the
digit-run regex used as a fallback by `parseRuntime`). -/
def firstDigitRun (s : String) : List Char :=
  (s.toList.dropWhile (fun c => !c.isDigit)).takeWhile Char.isDigit

/-- Fallback branch of `parseRuntime`: take the first digit run as an
integer, 0 when there is none. -/
def runtimeNumFallback (s : String) : Option ℚ :=
  let run := firstDigitRun s
  if run.isEmpty then some 0 else some (digitsToNat run : ℚ)

/-- `parseRuntime` from src/services/archive.js.  The argument is
`none` for a missing (falsy) runtime field.  Three colon-separated parts
are read as H:MM:SS; for two parts the code comment says: could be HH:MM
or MM:SS — assume MM:SS if first part is under 10.  Any other number of
parts falls through to the first-digit-run fallback. -/
def parseRuntime (runtime : Option String) : Option ℚ :=
  match runtime with
  | none => some 0
  | some s =>
      if s = "" then some 0
      else if s.toList.contains ':' then
        match (splitOnChar ':' s.toList).map jsNumberChars with
        | [a, b, c] => jsAdd (jsAdd (jsMul a 60) b) (jsDiv c 60)
        | [a, b] =>
            if jsLtNum a 10 then jsAdd a (jsDiv b 60)
            else jsAdd (jsMul a 60) b
        | _ => runtimeNumFallback s
      else runtimeNumFallback s

/-! ### TMDB data model (src/services/tmdb.js)

`TMDBMovie` is the shape of one entry of the ranked result list returned
by the external search endpoint; `MovieData` is the record the service
builds from the best match and stores in the cache (`null` / `none`
standing for the explicit no-match tombstone). -/

/-- One candidate of the ranked search-result list. -/
structure TMDBMovie where
  id : Int
  title : String
  poster_path : Option String
  backdrop_path : Option String
  release_date : String
  overview : String
  vote_average : ℚ
  genre_ids : List Int
deriving DecidableEq, Repr

/-- The record cached and returned for a matched movie (the object
literal built from `bestMatch` in the fetch routine). -/
structure MovieData where
  id : Int
  title : String
  posterPath : Option String
  backdropPath : Option String
  releaseDate : String
  overview : String
  voteAverage : ℚ
  genreIds : List Int
deriving DecidableEq, Repr

/-- Conversion from a raw search candidate to the cached record. -/
def toMovieData (m : TMDBMovie) : MovieData :=
  ⟨m.id, m.title, m.poster_path, m.backdrop_path, m.release_date,
   m.overview, m.vote_average, m.genre_ids⟩

/-- JavaScript truthiness of an optional string field (`null`,
`undefined` and the empty string are falsy). -/
def jsStrTruthy (o : Option String) : Bool :=
  o.elim false (fun s => s != "")

/-- Substring test on character lists (JavaScript `includes`). -/
def listIsInfixOf (xs : List Char) : List Char → Bool
  | [] => xs.isEmpty
  | c :: t => xs.isPrefixOf (c :: t) || listIsInfixOf xs t

/-- JavaScript `s.includes(sub)`. -/
def jsIncludes (s sub : String) : Bool :=
  listIsInfixOf sub.toList s.toList

/-- The predicate of the best-match search: the candidate title
case-insensitively equals, contains, or is contained in the cleaned
query title (the arrow function inside the fetch routine). -/
def titleMatches (cleanedTitle movieTitle : String) : Bool :=
  let mt := jsToLower movieTitle
  let st := jsToLower cleanedTitle
  mt == st || jsIncludes mt st || jsIncludes st mt

/-- Best-match selection of the fetch routine (src/services/tmdb.js
lines 195-222): the first candidate whose title matches, else the
top-ranked candidate when it carries a truthy poster reference, else
none. -/
def findBestMatch (cleanedTitle : String) (results : List TMDBMovie) :
    Option TMDBMovie :=
  match results.find? (fun m => titleMatches cleanedTitle m.title) with
  | some m => some m
  | none =>
      match results with
      | [] => none
      | first :: _ => if jsStrTruthy first.poster_path then some first else none

/-! ### Match cache (src/services/tmdb.js lines 100-125)

The in-memory `Map` is modelled as an association list read through
`lookupEntry`, which returns the most recent binding — observationally
the same as `Map.get` after `Map.set`.  Timestamps are integer
milliseconds passed in explicitly where the source reads the clock. -/

/-- Cache time-to-live: 7 days in milliseconds. -/
def CACHE_DURATION : Int := 1000 * 60 * 60 * 24 * 7

/-- One cache entry: the resolved record (`none` = explicit no-match)
plus the time it was stored. -/
structure CacheEntry where
  data : Option MovieData
  timestamp : Int
deriving DecidableEq, Repr

/-- The match cache. -/
abbrev Cache := List (String × CacheEntry)

/-- Read the current binding of a key. -/
def lookupEntry (cache : Cache) (key : String) : Option CacheEntry :=
  (cache.find? (fun p => p.1 == key)).map (fun p => p.2)

/-- String rendering of the year component of a cache key: the template
literal writes the year unless it is falsy (absent or 0), in which case
it writes the word for an unknown year. -/
def jsYearString : Option Int → String
  | none => "unknown"
  | some y => if y = 0 then "unknown" else toString y

/-- `getCacheKey`: lowercased, trimmed title, a dash, and the year
component. -/
def getCacheKey (title : String) (year : Option Int) : String :=
  jsTrim (jsToLower title) ++ "-" ++ jsYearString year

/-- Result shape of `getFromCache`: the found flag distinguishes "not
cached" from "cached but no result". -/
structure CacheLookup where
  found : Bool
  data : Option MovieData
deriving DecidableEq, Repr

/-- `getFromCache`: a fresh entry (younger than the TTL) is returned
with `found = true`; a missing or expired entry yields `found = false`. -/
def getFromCache (cache : Cache) (now : Int) (title : String)
    (year : Option Int) : CacheLookup :=
  match lookupEntry cache (getCacheKey title year) with
  | some cached =>
      if now - cached.timestamp < CACHE_DURATION then ⟨true, cached.data⟩
      else ⟨false, none⟩
  | none => ⟨false, none⟩

/-- `setCache`: bind the key to the record stamped with the current
time (association-list overwrite). -/
def setCache (cache : Cache) (now : Int) (title : String)
    (year : Option Int) (data : Option MovieData) : Cache :=
  (getCacheKey title year, ⟨data, now⟩) :: cache

/-- `hasCachedPoster` (src/services/tmdb.js lines 304-316): `some true`
when a cached record carries a truthy poster reference, `some false`
when the key was looked up and resolved to the no-match tombstone,
`none` (unknown) otherwise.  Note the source performs no TTL check
here. -/
def hasCachedPoster (cache : Cache) (title : String) (year : Option Int) :
    Option Bool :=
  match lookupEntry cache (getCacheKey title year) with
  | some cached =>
      if jsStrTruthy (cached.data.bind MovieData.posterPath) then some true
      else
        match cached.data with
        | none => some false
        | some _ => none
  | none => none

/-! ### Resolver steps (`searchMovie` / `_fetchFromTMDB`, lines 139-231)

`searchMovie`'s synchronous prefix — cache check, pending-map check,
registration of a new fetch — is one transition (`searchMovieCall`).
The settling of the fetch — cache write and removal of the pending
entry by the `finally` block — is the other (`fetchSettle`).  The
network response is an explicit parameter of the settling step. -/

/-- State shared by all resolver calls: the match cache and the pending
keys map. -/
structure ResolverState where
  cache : Cache
  pending : List String
deriving DecidableEq, Repr

/-- Observable outcome of the synchronous prefix of `searchMovie`. -/
inductive CallResult where
  /-- Service disabled (no API key): the call returns null. -/
  | disabled
  /-- Cache hit: the call returns the cached record. -/
  | cachedHit (data : Option MovieData)
  /-- A pending request for the key exists: the caller is handed that
  same pending promise and no new fetch starts. -/
  | joinedPending
  /-- A new fetch was created and registered in the pending map. -/
  | startedFetch
deriving DecidableEq, Repr

/-- Synchronous prefix of `searchMovie`. -/
def searchMovieCall (enabled : Bool) (st : ResolverState) (now : Int)
    (title : String) (year : Option Int) : CallResult × ResolverState :=
  if !enabled then (.disabled, st)
  else
    let key := getCacheKey title year
    let cached := getFromCache st.cache now title year
    if cached.found then (.cachedHit cached.data, st)
    else if st.pending.contains key then (.joinedPending, st)
    else (.startedFetch, { st with pending := key :: st.pending })

/-- The three ways the external query can settle. -/
inductive NetOutcome where
  /-- Successful response carrying the ranked result list. -/
  | ok (results : List TMDBMovie)
  /-- Response received but not ok (non-success status). -/
  | httpError (status : Nat)
  /-- Thrown network failure. -/
  | netError
deriving DecidableEq, Repr

/-- Value the fetch routine resolves with: the best match on a
successful response, null on an empty match, a non-success status, or a
thrown failure. -/
def fetchOutcomeResult (cleanedTitle : String) : NetOutcome → Option MovieData
  | .ok results => (findBestMatch cleanedTitle results).map toMovieData
  | .httpError _ => none
  | .netError => none

/-- Settling step of a fetch started for `(title, year)`: every branch
of the fetch routine writes its resolved value to the cache (including
the non-success and thrown branches), and the `finally` block of
`searchMovie` removes the pending entry. -/
def fetchSettle (st : ResolverState) (now : Int) (title : String)
    (year : Option Int) (resp : NetOutcome) :
    Option MovieData × ResolverState :=
  let result := fetchOutcomeResult (cleanTitle title) resp
  (result,
   ⟨setCache st.cache now title year result,
    st.pending.erase (getCacheKey title year)⟩)

/-! ### Browser filter pipeline (src/components/VideoPlayerModal.jsx)

`CatalogItem` carries the fields of the normalised archive record that
the filter pipeline and the append step read. -/

/-- Normalised archive record (the fields consumed by the modelled
component logic). -/
structure CatalogItem where
  identifier : String
  title : String
  year : Option Int
  runtimeMinutes : ℚ
deriving DecidableEq, Repr

/-- Runtime/content-type bucket of `filteredByRuntime` (lines 671-679):
the trailers bucket keeps items under 30 minutes or with no runtime
data, the features bucket keeps items at or above the minimum runtime. -/
def runtimeBucket (movies : List CatalogItem) (contentType : String)
    (minRuntime : ℚ) : List CatalogItem :=
  if contentType == "trailers" then
    movies.filter (fun m =>
      decide (m.runtimeMinutes = 0) || decide (m.runtimeMinutes ≤ 30))
  else
    movies.filter (fun m => decide (minRuntime ≤ m.runtimeMinutes))

/-- Per-item poster test of the exclusion filter: an item is dropped
when its identifier was reported as having no image, or the cache holds
a confirmed no-poster answer for its title/year. -/
def posterKnownPresent (moviesWithoutImages : List String) (cache : Cache)
    (m : CatalogItem) : Bool :=
  if moviesWithoutImages.contains m.identifier then false
  else if hasCachedPoster cache m.title m.year == some false then false
  else true

/-- `filteredByRuntime` (lines 671-695): the runtime/content-type
bucket, then — only when no text search is active and a TMDB API key is
present — the poster-known-missing exclusion. -/
def filteredByRuntime (movies : List CatalogItem) (contentType : String)
    (minRuntime : ℚ) (activeSearch tmdbApiKey : String)
    (moviesWithoutImages : List String) (cache : Cache) :
    List CatalogItem :=
  let filtered := runtimeBucket movies contentType minRuntime
  if activeSearch == "" && tmdbApiKey != "" then
    filtered.filter (posterKnownPresent moviesWithoutImages cache)
  else filtered

/-! ### Load / load-more collection updates (`fetchMovies`, lines 596-602) -/

/-- Append step of `fetchMovies`: fetched items whose identifier is
already present are dropped, the rest are appended. -/
def appendMovies (prev fetched : List CatalogItem) : List CatalogItem :=
  let existingIds := prev.map (fun m => m.identifier)
  prev ++ fetched.filter (fun m => !(existingIds.contains m.identifier))

/-- One collection update: an initial load replaces the collection, a
load-more append goes through the dedup step. -/
inductive FetchOp where
  | load (page : List CatalogItem)
  | append (page : List CatalogItem)

/-- Apply one collection update. -/
def applyFetchOp (movies : List CatalogItem) : FetchOp → List CatalogItem
  | .load page => page
  | .append page => appendMovies movies page

/-- Apply a sequence of collection updates to the initial empty
collection state. -/
def runFetchOps (movies : List CatalogItem) (ops : List FetchOp) :
    List CatalogItem :=
  ops.foldl applyFetchOp movies

/-! ### Rate limiter (`throttledFetch`, src/services/tmdb.js lines 87-99)

`throttledFetch` reads the shared last-request clock, sleeps when the
minimum interval has not elapsed, then writes the clock and issues the
request.  The cooperative event loop is modelled as a transition system:
each caller is either before its clock read, suspended until a wake
time, or has issued its request at a recorded time.  A schedule step
runs one caller at one (monotone) instant; a suspended caller can only
be resumed at or after its wake time.  The issue log records outbound
requests in order. -/

/-- Minimum interval between outbound requests (milliseconds). -/
def MIN_REQUEST_INTERVAL : Int := 100

/-- Progress of one `throttledFetch` caller. -/
inductive ThrottleCaller where
  /-- About to read the shared clock. -/
  | start
  /-- Suspended in the timer until the wake instant. -/
  | sleeping (wake : Int)
  /-- Request issued at the recorded instant. -/
  | issued (time : Int)
deriving DecidableEq, Repr

/-- Shared rate-limiter state plus the caller states and the issue log. -/
structure ThrottleState where
  lastRequestTime : Int
  time : Int
  callers : List ThrottleCaller
  log : List Int
deriving DecidableEq, Repr

/-- Run caller `i` at instant `t`: a starting caller compares `t`
against the shared clock and either issues immediately or goes to sleep
for the remainder of the interval; a sleeping caller resumed at or
after its wake time writes the shared clock and issues. -/
def throttleStep (st : ThrottleState) (i : Nat) (t : Int) :
    Option ThrottleState :=
  if t < st.time then none
  else
    match st.callers[i]? with
    | some .start =>
        let elapsed := t - st.lastRequestTime
        if elapsed < MIN_REQUEST_INTERVAL then
          let w := t + (MIN_REQUEST_INTERVAL - elapsed)
          some ⟨st.lastRequestTime, t, st.callers.set i (.sleeping w), st.log⟩
        else
          some ⟨t, t, st.callers.set i (.issued t), st.log ++ [t]⟩
    | some (.sleeping w) =>
        if t < w then none
        else
          some ⟨t, t, st.callers.set i (.issued t), st.log ++ [t]⟩
    | _ => none

/-- Run a whole schedule of (caller, instant) steps. -/
def runThrottle (st : ThrottleState) : List (Nat × Int) → Option ThrottleState
  | [] => some st
  | (i, t) :: rest =>
      match throttleStep st i t with
      | some st2 => runThrottle st2 rest
      | none => none

/-- Consecutive entries of an issue log are at least the minimum
interval apart. -/
def spacedOk : List Int → Bool
  | [] => true
  | [_] => true
  | a :: b :: rest =>
      decide (a + MIN_REQUEST_INTERVAL ≤ b) && spacedOk (b :: rest)

/-- Sequential execution of `throttledFetch`: when each call runs to
its outbound request before the next call begins (and a suspended call
is resumed at its wake time), the body reduces to: with `g` the shared
clock and `t` the arrival instant, issue at `g + interval` when
`t - g` is under the interval, else at `t`, and the issue instant
becomes the new shared clock.  `seqThrottleRun` folds this over a list
of arrival instants and returns the issue log. -/
def seqThrottleRun (g : Int) : List Int → List Int
  | [] => []
  | t :: ts =>
      let i := if t - g < MIN_REQUEST_INTERVAL then g + MIN_REQUEST_INTERVAL
               else t
      i :: seqThrottleRun i ts

/-! ## Claims -/

/-- C9: the title normaliser is a pure total function (a Lean `def` on
`String`) that strips a trailing parenthesised 4-digit year, a trailing
bracketed 4-digit year, and a trailing dash-year suffix, collapses
non-alphanumeric characters to spaces and collapses repeated whitespace;
in particular on the three specified titles, and on a title exercising
the punctuation and whitespace collapse. -/
theorem cleanTitle_strips_year_decorations :
    cleanTitle "The Great Escape (1963)" = "The Great Escape" ∧
    cleanTitle "Metropolis [1927]" = "Metropolis" ∧
    cleanTitle "Nosferatu - 1922" = "Nosferatu" ∧
    cleanTitle "  Night, of the Living-Dead (1968)  " = "Night of the Living Dead" := by
  refine ⟨?_, ?_, ?_, ?_⟩ <;> decide

/-- C5 counterexample: the claimed disambiguation rule (first component
under 10 means hours:minutes, otherwise minutes:seconds converted
proportionally) fails on the code.  At "5:30" the code yields 5.5
minutes (minutes:seconds), not the 330 the hours:minutes reading would
give; at "45:30" it yields 2730 minutes (hours:minutes), not the 45.5 a
proportional minutes:seconds reading would give. -/
theorem parseRuntime_rule_direction_counterexample :
    parseRuntime (some "5:30") = some (5 + 30 / 60 : ℚ) ∧
    (5 + 30 / 60 : ℚ) ≠ 5 * 60 + 30 ∧
    parseRuntime (some "45:30") = some (45 * 60 + 30 : ℚ) ∧
    (45 * 60 + 30 : ℚ) ≠ 45 + 30 / 60 := by
  have h1 : parseRuntime (some "5:30") =
      jsAdd (some 5) (jsDiv (some 30) 60) := rfl
  have h2 : parseRuntime (some "45:30") =
      jsAdd (jsMul (some 45) 60) (some 30) := rfl
  refine ⟨?_, by norm_num, ?_, by norm_num⟩
  · rw [h1]; simp [jsAdd, jsDiv]
  · rw [h2]; simp [jsAdd, jsMul]

/-- A separator-free list is split into a single field. -/
theorem splitOnChar_of_not_mem (sep : Char) (l : List Char) (h : sep ∉ l) :
    splitOnChar sep l = [l] := by
  induction l with
  | nil => rfl
  | cons c cs ih =>
      have hc : ¬(c = sep) := fun hce => h (hce ▸ List.mem_cons_self c cs)
      have hcs : sep ∉ cs := fun hm => h (List.mem_cons_of_mem c hm)
      simp [splitOnChar, hc, ih hcs]

/-- Splitting at the first separator yields the separator-free head
as the first field. -/
theorem splitOnChar_append_sep (sep : Char) (l₁ l₂ : List Char) (h : sep ∉ l₁) :
    splitOnChar sep (l₁ ++ sep :: l₂) = l₁ :: splitOnChar sep l₂ := by
  induction l₁ with
  | nil => simp [splitOnChar]
  | cons c cs ih =>
      have hc : ¬(c = sep) := fun hce => h (hce ▸ List.mem_cons_self c cs)
      have hcs : sep ∉ cs := fun hm => h (List.mem_cons_of_mem c hm)
      simp [splitOnChar, hc, ih hcs]

/-- Every two-component input (colon-free components around one colon)
reaches the two-part branch of `parseRuntime` with exactly those
components as fields. -/
theorem parseRuntime_two_part_key (a b : List Char) (ha : ':' ∉ a) (hb : ':' ∉ b) :
    parseRuntime (some (String.mk (a ++ ':' :: b))) =
      (if jsLtNum (jsNumberChars a) 10 then
        jsAdd (jsNumberChars a) (jsDiv (jsNumberChars b) 60)
      else jsAdd (jsMul (jsNumberChars a) 60) (jsNumberChars b)) := by
  have hne : ¬(String.mk (a ++ ':' :: b) = "") := by
    intro hcontr
    have h2 : a ++ ':' :: b = ([] : List Char) := congrArg String.data hcontr
    simp at h2
  have hct : (String.mk (a ++ ':' :: b)).toList.contains ':' = true := by
    simp [String.toList]
  have hsplit : splitOnChar ':' (String.mk (a ++ ':' :: b)).toList = [a, b] := by
    show splitOnChar ':' (a ++ ':' :: b) = [a, b]
    rw [splitOnChar_append_sep ':' a b ha, splitOnChar_of_not_mem ':' b hb]
  simp only [parseRuntime, hne, hct, hsplit, List.map_cons, List.map_nil,
    if_false, if_true, ite_false, ite_true]

/-- C5 amended: "1:32:00" parses to 92 minutes, and the two-component
ambiguity rule of the code is the reverse of the claimed one.  For
every two-component input — colon-free components A and B around one
colon — whose components both convert to numbers, a first component
under 10 is treated as minutes:seconds (first plus second/60, so
"5:30" gives 5.5), and a first component of 10 or more as
hours:minutes (first times 60 plus second, so "45:30" gives 2730);
when either component converts to NaN the parse yields NaN. -/
theorem parseRuntime_ambiguity_rule :
    (∀ (a b : List Char), ':' ∉ a → ':' ∉ b → ∀ (qa qb : ℚ),
      jsNumberChars a = some qa → jsNumberChars b = some qb →
      parseRuntime (some (String.mk (a ++ ':' :: b))) =
        some (if qa < 10 then qa + qb / 60 else qa * 60 + qb)) ∧
    (∀ (a b : List Char), ':' ∉ a → ':' ∉ b →
      jsNumberChars a = none ∨ jsNumberChars b = none →
      parseRuntime (some (String.mk (a ++ ':' :: b))) = none) ∧
    parseRuntime (some "1:32:00") = some 92 ∧
    parseRuntime (some "5:30") = some (5 + 30 / 60 : ℚ) ∧
    parseRuntime (some "45:30") = some (45 * 60 + 30 : ℚ) := by
  refine ⟨?_, ?_, ?_, ?_, ?_⟩
  · intro a b ha hb qa qb hqa hqb
    rw [parseRuntime_two_part_key a b ha hb, hqa, hqb]
    by_cases h : qa < 10
    · simp [jsLtNum, jsAdd, jsDiv, h]
    · simp [jsLtNum, jsAdd, jsMul, h]
  · intro a b ha hb hnone
    rw [parseRuntime_two_part_key a b ha hb]
    rcases hnone with h | h
    · simp [h, jsLtNum, jsAdd, jsMul]
    · rcases hA : jsNumberChars a with _ | qa
      · simp [hA, h, jsLtNum, jsAdd, jsMul]
      · by_cases hlt : qa < 10
        · simp [hA, h, jsLtNum, jsAdd, jsDiv, hlt]
        · simp [hA, h, jsLtNum, jsAdd, jsMul, hlt]
  · have h0 : parseRuntime (some "1:32:00") =
        jsAdd (jsAdd (jsMul (some 1) 60) (some 32)) (jsDiv (some 0) 60) := rfl
    rw [h0]; simp [jsAdd, jsMul, jsDiv]; norm_num
  · have h1 : parseRuntime (some "5:30") =
        jsAdd (some 5) (jsDiv (some 30) 60) := rfl
    rw [h1]; simp [jsAdd, jsDiv]
  · have h2 : parseRuntime (some "45:30") =
        jsAdd (jsMul (some 45) 60) (some 30) := rfl
    rw [h2]; simp [jsAdd, jsMul]

/-- C5 amended witness: the rule at the concrete two-component inputs
"45:30" (both components numeric, first at least 10) and "x:30" (first
component NaN). -/
theorem parseRuntime_ambiguity_rule_witness :
    parseRuntime (some (String.mk (['4', '5'] ++ ':' :: ['3', '0']))) =
      some (if (45 : ℚ) < 10 then 45 + 30 / 60 else 45 * 60 + 30) ∧
    parseRuntime (some (String.mk (['x'] ++ ':' :: ['3', '0']))) = none := by
  constructor
  · exact parseRuntime_ambiguity_rule.1 ['4', '5'] ['3', '0'] (by decide) (by decide)
      45 30 (by decide) (by decide)
  · exact parseRuntime_ambiguity_rule.2.1 ['x'] ['3', '0'] (by decide) (by decide)
      (Or.inl (by decide))

/-- C8: the cache read distinguishes three states: no (fresh) entry for
the key gives `found = false`; a fresh entry holding the no-match
tombstone gives `found = true` with a null record; a fresh entry holding
a match gives `found = true` with that record; and a cached negative
(`found = true`, null record) makes the resolver return immediately with
no network activity. -/
theorem getFromCache_three_states :
    ∀ (cache : Cache) (now : Int) (title : String) (year : Option Int),
      (lookupEntry cache (getCacheKey title year) = none →
        getFromCache cache now title year = ⟨false, none⟩) ∧
      (∀ e, lookupEntry cache (getCacheKey title year) = some e →
        ¬(now - e.timestamp < CACHE_DURATION) →
        getFromCache cache now title year = ⟨false, none⟩) ∧
      (∀ e, lookupEntry cache (getCacheKey title year) = some e →
        now - e.timestamp < CACHE_DURATION →
        getFromCache cache now title year = ⟨true, e.data⟩) ∧
      (∀ st : ResolverState, st.cache = cache →
        getFromCache cache now title year = ⟨true, none⟩ →
        searchMovieCall true st now title year = (.cachedHit none, st)) := by
  intro cache now title year
  refine ⟨?_, ?_, ?_, ?_⟩
  · intro h; simp [getFromCache, h]
  · intro e he hts; simp [getFromCache, he, hts]
  · intro e he hts; simp [getFromCache, he, hts]
  · intro st hst hfound
    simp [searchMovieCall, hst, hfound]

/-- C8 witness: a concrete cache holding a fresh tombstone for one key
and nothing else realises all four cases. -/
theorem getFromCache_three_states_witness :
    getFromCache [("metropolis-1927", ⟨none, 0⟩)] 5 "Other" none = ⟨false, none⟩ ∧
    getFromCache [("metropolis-1927", ⟨none, 0⟩)] CACHE_DURATION "Metropolis" (some 1927) =
      ⟨false, none⟩ ∧
    getFromCache [("metropolis-1927", ⟨none, 0⟩)] 5 "Metropolis" (some 1927) =
      ⟨true, none⟩ ∧
    searchMovieCall true ⟨[("metropolis-1927", ⟨none, 0⟩)], []⟩ 5 "Metropolis" (some 1927) =
      (.cachedHit none, ⟨[("metropolis-1927", ⟨none, 0⟩)], []⟩) := by
  refine ⟨?_, ?_, ?_, ?_⟩
  · exact (getFromCache_three_states [("metropolis-1927", ⟨none, 0⟩)] 5 "Other" none).1
      (by decide)
  · exact (getFromCache_three_states [("metropolis-1927", ⟨none, 0⟩)] CACHE_DURATION
      "Metropolis" (some 1927)).2.1 ⟨none, 0⟩ (by decide) (by decide)
  · exact (getFromCache_three_states [("metropolis-1927", ⟨none, 0⟩)] 5
      "Metropolis" (some 1927)).2.2.1 ⟨none, 0⟩ (by decide) (by decide)
  · exact (getFromCache_three_states [("metropolis-1927", ⟨none, 0⟩)] 5
      "Metropolis" (some 1927)).2.2.2 ⟨[("metropolis-1927", ⟨none, 0⟩)], []⟩ rfl
      (by decide)

/-- C1 counterexample: after a lookup settles with a non-success HTTP
response, the error outcome IS written to the match cache (both the
non-ok branch and the catch branch of the fetch routine call the cache
write with a null record), so a later lookup for the same key within the
TTL returns the cached negative and starts no fresh network attempt. -/
theorem fetch_error_cached_counterexample :
    (fetchSettle ⟨[], ["night of the living dead-unknown"]⟩ 0
        "Night of the Living Dead" none (.httpError 500)).2.cache =
      [("night of the living dead-unknown", ⟨none, 0⟩)] ∧
    getFromCache
      (fetchSettle ⟨[], ["night of the living dead-unknown"]⟩ 0
        "Night of the Living Dead" none (.httpError 500)).2.cache
      1 "Night of the Living Dead" none = ⟨true, none⟩ ∧
    searchMovieCall true
      (fetchSettle ⟨[], ["night of the living dead-unknown"]⟩ 0
        "Night of the Living Dead" none (.httpError 500)).2
      1 "Night of the Living Dead" none =
      (.cachedHit none,
        (fetchSettle ⟨[], ["night of the living dead-unknown"]⟩ 0
          "Night of the Living Dead" none (.httpError 500)).2) := by
  refine ⟨?_, ?_, ?_⟩ <;> decide

/-- C1 amended: transport and server errors are cached exactly like a
successful-but-empty response — the settling step resolves with null and
writes a null record stamped with the current time, and any lookup for
the same key within the TTL of that write returns the cached negative
without a fresh network attempt. -/
theorem fetch_error_writes_null_to_cache
    (st : ResolverState) (now t2 : Int) (title : String) (year : Option Int)
    (resp : NetOutcome)
    (herr : (∃ status, resp = .httpError status) ∨ resp = .netError) :
    (fetchSettle st now title year resp).1 = none ∧
    (fetchSettle st now title year resp).2.cache =
      setCache st.cache now title year none ∧
    (t2 - now < CACHE_DURATION →
      searchMovieCall true (fetchSettle st now title year resp).2 t2 title year =
        (.cachedHit none, (fetchSettle st now title year resp).2)) := by
  have hres : fetchOutcomeResult (cleanTitle title) resp = none := by
    rcases herr with ⟨status, rfl⟩ | rfl <;> rfl
  refine ⟨?_, ?_, ?_⟩
  · simp [fetchSettle, hres]
  · simp [fetchSettle, hres]
  · intro hts
    simp [fetchSettle, hres, searchMovieCall, getFromCache, setCache,
      lookupEntry, hts]

/-- C1 amended witness: the thrown-network-failure case at a concrete
state and key. -/
theorem fetch_error_writes_null_to_cache_witness :
    (fetchSettle ⟨[], []⟩ 10 "Metropolis" (some 1927) .netError).1 = none ∧
    (fetchSettle ⟨[], []⟩ 10 "Metropolis" (some 1927) .netError).2.cache =
      setCache [] 10 "Metropolis" (some 1927) none ∧
    (11 - 10 < CACHE_DURATION →
      searchMovieCall true (fetchSettle ⟨[], []⟩ 10 "Metropolis" (some 1927) .netError).2
          11 "Metropolis" (some 1927) =
        (.cachedHit none, (fetchSettle ⟨[], []⟩ 10 "Metropolis" (some 1927) .netError).2)) :=
  fetch_error_writes_null_to_cache ⟨[], []⟩ 10 11 "Metropolis" (some 1927)
    .netError (Or.inr rfl)

/-- C2: at most one lookup is outstanding per key.  A call that finds a
pending entry for its key (and no cache hit) joins it: the result is the
pending promise and the state — in particular the pending map — is
unchanged, so no second fetch starts.  The settling step removes the key
from the pending map whatever the outcome (success, non-success
response, or thrown failure), and with a duplicate-free pending map the
key is gone after settling.  Both steps preserve duplicate-freedom, so
the pending map holds at most one entry per key. -/
theorem searchMovie_pending_dedup :
    ∀ (st : ResolverState) (now : Int) (title : String) (year : Option Int),
      ((getFromCache st.cache now title year).found = false →
        st.pending.contains (getCacheKey title year) = true →
        searchMovieCall true st now title year = (.joinedPending, st)) ∧
      (∀ resp, (fetchSettle st now title year resp).2.pending =
        st.pending.erase (getCacheKey title year)) ∧
      (st.pending.Nodup → ∀ resp,
        getCacheKey title year ∉ (fetchSettle st now title year resp).2.pending) ∧
      (∀ enabled, st.pending.Nodup →
        (searchMovieCall enabled st now title year).2.pending.Nodup) := by
  intro st now title year
  refine ⟨?_, ?_, ?_, ?_⟩
  · intro hfound hpend
    have hmem : getCacheKey title year ∈ st.pending := by simpa using hpend
    simp [searchMovieCall, hfound, hmem]
  · intro resp; rfl
  · intro hnd resp
    have h2 : (fetchSettle st now title year resp).2.pending =
        st.pending.erase (getCacheKey title year) := rfl
    rw [h2]
    exact hnd.not_mem_erase
  · intro enabled hnd
    by_cases he : enabled
    · subst he
      by_cases hf : (getFromCache st.cache now title year).found
      · simp [searchMovieCall, hf, hnd]
      · by_cases hp : getCacheKey title year ∈ st.pending
        · simp [searchMovieCall, hf, hp, hnd]
        · simp [searchMovieCall, hf, hp, hnd]
    · have he' : enabled = false := by simpa using he
      subst he'
      simpa [searchMovieCall] using hnd

/-- C2 witness: with a pending entry for the key and an empty cache, a
second call joins the pending request; settling removes the entry. -/
theorem searchMovie_pending_dedup_witness :
    searchMovieCall true ⟨[], ["alien-1979"]⟩ 0 "Alien" (some 1979) =
      (.joinedPending, ⟨[], ["alien-1979"]⟩) ∧
    "alien-1979" ∉
      (fetchSettle ⟨[], ["alien-1979"]⟩ 0 "Alien" (some 1979) .netError).2.pending := by
  constructor
  · exact (searchMovie_pending_dedup ⟨[], ["alien-1979"]⟩ 0 "Alien" (some 1979)).1
      (by decide) (by decide)
  · exact (searchMovie_pending_dedup ⟨[], ["alien-1979"]⟩ 0 "Alien" (some 1979)).2.2.1
      (by decide) .netError

/-- C3: a second lookup for the same (title, year) within the TTL of the
first lookup's settled result is answered from the cache: it returns
exactly the record the first lookup resolved with, performs no state
change, and starts no network fetch. -/
theorem lookup_twice_within_ttl
    (st st1 st2 : ResolverState) (t1 t2 t3 : Int) (title : String)
    (year : Option Int) (resp : NetOutcome) (r : Option MovieData)
    (h1 : searchMovieCall true st t1 title year = (.startedFetch, st1))
    (h2 : fetchSettle st1 t2 title year resp = (r, st2))
    (h3 : t3 - t2 < CACHE_DURATION) :
    searchMovieCall true st2 t3 title year = (.cachedHit r, st2) := by
  have hr : r = fetchOutcomeResult (cleanTitle title) resp := by
    have := congrArg Prod.fst h2
    simpa [fetchSettle] using this.symm
  have hcache : st2.cache =
      (getCacheKey title year,
        ⟨fetchOutcomeResult (cleanTitle title) resp, t2⟩) :: st1.cache := by
    have := congrArg (fun p => (Prod.snd p).cache) h2
    simpa [fetchSettle, setCache] using this.symm
  have hlook : getFromCache st2.cache t3 title year =
      ⟨true, fetchOutcomeResult (cleanTitle title) resp⟩ := by
    simp [getFromCache, lookupEntry, hcache, h3]
  simp [searchMovieCall, hlook, hr]

/-- C3 witness: a full call–settle–call run at a concrete state, with a
successful-but-empty response settling to the null record. -/
theorem lookup_twice_within_ttl_witness :
    searchMovieCall true
      (fetchSettle ⟨[], ["alien-1979"]⟩ 10 "Alien" (some 1979) (.ok [])).2
      11 "Alien" (some 1979) =
    (.cachedHit none,
      (fetchSettle ⟨[], ["alien-1979"]⟩ 10 "Alien" (some 1979) (.ok [])).2) := by
  exact lookup_twice_within_ttl ⟨[], []⟩ ⟨[], ["alien-1979"]⟩
    (fetchSettle ⟨[], ["alien-1979"]⟩ 10 "Alien" (some 1979) (.ok [])).2
    0 10 11 "Alien" (some 1979) (.ok []) none
    (by decide) (by decide) (by decide)

/-- Concrete ranked candidate list for the best-match example. -/
def tmdbAlien : TMDBMovie :=
  ⟨348, "Alien", some "/alien.jpg", some "/alien-bd.jpg", "1979-05-25",
   "In space no one can hear you scream.", 8, [27, 878]⟩

/-- Second-ranked candidate of the example list. -/
def tmdbAliens : TMDBMovie :=
  ⟨679, "Aliens", some "/aliens.jpg", none, "1986-07-18", "", 8, [28, 878]⟩

/-- Third-ranked candidate of the example list. -/
def tmdbAlien3 : TMDBMovie :=
  ⟨8077, "Alien 3", some "/alien3.jpg", none, "1992-05-22", "", 7, [878]⟩

/-- C4: on a non-empty ranked candidate list, when some candidate's
title case-insensitively equals, contains or is contained in the query
title, the selection returns such a candidate from the list; when no
candidate qualifies, it returns the top-ranked candidate exactly when
that candidate carries a truthy poster reference, and no match
otherwise.  For the candidates Alien, Aliens, Alien 3 and the query
"Alien" it selects "Alien". -/
theorem findBestMatch_heuristic :
    (∀ (q : String) (results : List TMDBMovie), results ≠ [] →
      ((∃ m ∈ results, titleMatches q m.title = true) →
        ∃ m, findBestMatch q results = some m ∧ m ∈ results ∧
          titleMatches q m.title = true) ∧
      ((∀ m ∈ results, titleMatches q m.title = false) →
        ∀ first rest, results = first :: rest →
          findBestMatch q results =
            (if jsStrTruthy first.poster_path then some first else none))) ∧
    findBestMatch "Alien" [tmdbAlien, tmdbAliens, tmdbAlien3] = some tmdbAlien := by
  constructor
  · intro q results hne
    constructor
    · intro hex
      have hsome : (results.find? (fun m => titleMatches q m.title)).isSome := by
        rw [List.find?_isSome]
        obtain ⟨m, hm, hp⟩ := hex
        exact ⟨m, hm, hp⟩
      obtain ⟨m, hm⟩ := Option.isSome_iff_exists.mp hsome
      have hpm : titleMatches q m.title = true := by
        have h := List.find?_some hm
        simpa using h
      refine ⟨m, ?_, List.mem_of_find?_eq_some hm, hpm⟩
      simp [findBestMatch, hm]
    · intro hall first rest hres
      have hnone : results.find? (fun m => titleMatches q m.title) = none := by
        rw [List.find?_eq_none]
        intro x hx
        simp [hall x hx]
      subst hres
      simp [findBestMatch, hnone]
  · decide

/-- C4 witness: the Alien example instantiates the existence branch, and
a query matching nothing instantiates the fallback branch (top-ranked
candidate returned because it carries a poster reference). -/
theorem findBestMatch_heuristic_witness :
    (∃ m, findBestMatch "Alien" [tmdbAlien, tmdbAliens, tmdbAlien3] = some m ∧
      m ∈ [tmdbAlien, tmdbAliens, tmdbAlien3] ∧
      titleMatches "Alien" m.title = true) ∧
    findBestMatch "Zorblax" [tmdbAlien, tmdbAliens, tmdbAlien3] =
      (if jsStrTruthy tmdbAlien.poster_path then some tmdbAlien else none) := by
  constructor
  · exact (findBestMatch_heuristic.1 "Alien" [tmdbAlien, tmdbAliens, tmdbAlien3]
      (by decide)).1 ⟨tmdbAlien, by decide, by decide⟩
  · exact (findBestMatch_heuristic.1 "Zorblax" [tmdbAlien, tmdbAliens, tmdbAlien3]
      (by decide)).2 (by decide) tmdbAlien [tmdbAliens, tmdbAlien3] rfl

/-- C7: the poster-known-missing exclusion of the filter pipeline is
applied exactly when no text search is active and a TMDB API key is
present.  With an active search (or no key) the pipeline output is the
runtime/content-type bucket alone, so every item passing the bucket
appears regardless of poster availability; with no search and a key, the
output is the bucket filtered by the per-item poster test, so an item
reported as image-less or cached with a confirmed missing poster is
excluded. -/
theorem filteredByRuntime_poster_exclusion :
    ∀ (movies : List CatalogItem) (contentType : String) (minRuntime : ℚ)
      (activeSearch tmdbApiKey : String) (noImg : List String) (cache : Cache),
      (activeSearch ≠ "" ∨ tmdbApiKey = "" →
        filteredByRuntime movies contentType minRuntime activeSearch tmdbApiKey
            noImg cache =
          runtimeBucket movies contentType minRuntime) ∧
      (activeSearch = "" → tmdbApiKey ≠ "" →
        filteredByRuntime movies contentType minRuntime activeSearch tmdbApiKey
            noImg cache =
          (runtimeBucket movies contentType minRuntime).filter
            (posterKnownPresent noImg cache)) ∧
      (activeSearch = "" → tmdbApiKey ≠ "" → ∀ m : CatalogItem,
        noImg.contains m.identifier = true ∨
          hasCachedPoster cache m.title m.year = some false →
        m ∉ filteredByRuntime movies contentType minRuntime activeSearch
            tmdbApiKey noImg cache) := by
  intro movies contentType minRuntime activeSearch tmdbApiKey noImg cache
  refine ⟨?_, ?_, ?_⟩
  · intro h
    rcases h with h | h <;> simp [filteredByRuntime, h]
  · intro h1 h2
    simp [filteredByRuntime, h1, h2]
  · intro h1 h2 m hm
    have hpf : posterKnownPresent noImg cache m = false := by
      by_cases hcont : m.identifier ∈ noImg
      · simp [posterKnownPresent, hcont]
      · rcases hm with hc | hc
        · exact absurd (by simpa using hc) hcont
        · simp [posterKnownPresent, hcont, hc]
    simp [filteredByRuntime, h1, h2, List.mem_filter, hpf]

/-- C7 witness: with an active search, an item whose poster is cached as
missing still appears; with no search, it is excluded. -/
theorem filteredByRuntime_poster_exclusion_witness :
    filteredByRuntime [⟨"m1", "Metropolis", some 1927, 60⟩] "features" 40
        "metropolis" "key" [] [("metropolis-1927", ⟨none, 0⟩)] =
      runtimeBucket [⟨"m1", "Metropolis", some 1927, 60⟩] "features" 40 ∧
    ⟨"m1", "Metropolis", some 1927, 60⟩ ∉
      filteredByRuntime [⟨"m1", "Metropolis", some 1927, 60⟩] "features" 40
        "" "key" [] [("metropolis-1927", ⟨none, 0⟩)] := by
  constructor
  · exact (filteredByRuntime_poster_exclusion [⟨"m1", "Metropolis", some 1927, 60⟩]
      "features" 40 "metropolis" "key" [] [("metropolis-1927", ⟨none, 0⟩)]).1
      (Or.inl (by decide))
  · exact (filteredByRuntime_poster_exclusion [⟨"m1", "Metropolis", some 1927, 60⟩]
      "features" 40 "" "key" [] [("metropolis-1927", ⟨none, 0⟩)]).2.2
      rfl (by decide) ⟨"m1", "Metropolis", some 1927, 60⟩ (Or.inr (by decide))

/-- Identifiers of a collection, in order. -/
def idsOf (l : List CatalogItem) : List String :=
  l.map (fun m => m.identifier)

/-- Page carried by a collection update. -/
def pageOf : FetchOp → List CatalogItem
  | .load page => page
  | .append page => page

/-- The append step preserves duplicate-freedom of identifiers: already
present identifiers are filtered out of the fetched page before the
append. -/
theorem appendMovies_ids_nodup (prev page : List CatalogItem)
    (h1 : (idsOf prev).Nodup) (h2 : (idsOf page).Nodup) :
    (idsOf (appendMovies prev page)).Nodup := by
  have hsub : List.Sublist
      (idsOf (page.filter
        (fun m => !((prev.map (fun m => m.identifier)).contains m.identifier))))
      (idsOf page) :=
    List.Sublist.map _ (List.filter_sublist page)
  rw [show idsOf (appendMovies prev page) =
      idsOf prev ++ idsOf (page.filter
        (fun m => !((prev.map (fun m => m.identifier)).contains m.identifier)))
    from List.map_append _ _ _]
  rw [List.nodup_append]
  refine ⟨h1, h2.sublist hsub, ?_⟩
  intro x hx hx2
  simp only [idsOf, List.mem_map] at hx2
  obtain ⟨m, hmf, hmx⟩ := hx2
  rw [List.mem_filter] at hmf
  have : ¬ (m.identifier ∈ prev.map (fun m => m.identifier)) := by
    simpa using hmf.2
  exact this (hmx ▸ hx)

/-- Any run of loads and appends from the empty collection keeps
identifiers duplicate-free, provided each fetched page is itself
duplicate-free on identifiers. -/
theorem runFetchOps_ids_nodup :
    ∀ (ops : List FetchOp) (movies : List CatalogItem),
      (idsOf movies).Nodup →
      (∀ op ∈ ops, (idsOf (pageOf op)).Nodup) →
      (idsOf (runFetchOps movies ops)).Nodup := by
  intro ops
  induction ops with
  | nil => intro movies h _; exact h
  | cons op rest ih =>
      intro movies h hall
      have hop : (idsOf (pageOf op)).Nodup := hall op (by simp)
      have hrest : ∀ o ∈ rest, (idsOf (pageOf o)).Nodup := by
        intro o ho; exact hall o (by simp [ho])
      cases op with
      | load page => exact ih page hop hrest
      | append page =>
          exact ih (appendMovies movies page)
            (appendMovies_ids_nodup movies page h hop) hrest

/-- The filter pipeline output is a sublist of the collection. -/
theorem filteredByRuntime_sublist
    (movies : List CatalogItem) (contentType : String) (minRuntime : ℚ)
    (activeSearch tmdbApiKey : String) (noImg : List String) (cache : Cache) :
    List.Sublist
      (filteredByRuntime movies contentType minRuntime activeSearch tmdbApiKey
        noImg cache) movies := by
  have hb : List.Sublist (runtimeBucket movies contentType minRuntime) movies := by
    unfold runtimeBucket
    split
    · exact List.filter_sublist movies
    · exact List.filter_sublist movies
  unfold filteredByRuntime
  split
  · exact (List.filter_sublist _).trans hb
  · exact hb

/-- C10: after any sequence of initial loads and load-more appends, the
collection holds at most one item per identifier — the append step drops
every fetched item whose identifier already occurs — and the displayed
list, a filtered sublist of the collection, inherits this. -/
theorem collection_ids_unique
    (ops : List FetchOp)
    (hpages : ∀ op ∈ ops, (idsOf (pageOf op)).Nodup) :
    (idsOf (runFetchOps [] ops)).Nodup ∧
    (∀ prev page, appendMovies prev page =
      prev ++ page.filter (fun m => !(idsOf prev).contains m.identifier)) ∧
    (∀ contentType minRuntime activeSearch tmdbApiKey noImg cache,
      (idsOf (filteredByRuntime (runFetchOps [] ops) contentType minRuntime
        activeSearch tmdbApiKey noImg cache)).Nodup) := by
  have hrun := runFetchOps_ids_nodup ops [] (by simp [idsOf]) hpages
  refine ⟨hrun, fun prev page => rfl, ?_⟩
  intro contentType minRuntime activeSearch tmdbApiKey noImg cache
  exact hrun.sublist (List.Sublist.map _
    (filteredByRuntime_sublist _ _ _ _ _ _ _))

/-- C10 witness: a load followed by an overlapping append at concrete
pages yields a duplicate-free collection. -/
theorem collection_ids_unique_witness :
    (idsOf (runFetchOps []
      [.load [⟨"a", "A", none, 60⟩, ⟨"b", "B", none, 50⟩],
       .append [⟨"a", "A", none, 60⟩, ⟨"c", "C", none, 45⟩]])).Nodup ∧
    (∀ prev page, appendMovies prev page =
      prev ++ page.filter (fun m => !(idsOf prev).contains m.identifier)) ∧
    (∀ contentType minRuntime activeSearch tmdbApiKey noImg cache,
      (idsOf (filteredByRuntime (runFetchOps []
        [.load [⟨"a", "A", none, 60⟩, ⟨"b", "B", none, 50⟩],
         .append [⟨"a", "A", none, 60⟩, ⟨"c", "C", none, 45⟩]])
        contentType minRuntime activeSearch tmdbApiKey noImg cache)).Nodup) :=
  collection_ids_unique
    [.load [⟨"a", "A", none, 60⟩, ⟨"b", "B", none, 50⟩],
     .append [⟨"a", "A", none, 60⟩, ⟨"c", "C", none, 45⟩]]
    (by intro op hop; fin_cases hop <;> decide)

/-- C6 counterexample: the spacing guarantee fails for overlapping
callers.  With the shared clock at 0, one caller issues at 1000; two
further callers start at 1050 and 1060 — both read the same
last-request time of 1000, compute wake times of 1100, sleep, and on
waking both issue at 1100.  The resulting issue log 1000, 1100, 1100
has two consecutive outbound requests 0 ms apart, below the 100 ms
minimum interval. -/
theorem throttledFetch_burst_counterexample :
    (runThrottle ⟨0, 0, [.start, .start, .start], []⟩
        [(0, 1000), (1, 1050), (2, 1060), (1, 1100), (2, 1100)]).map
      ThrottleState.log = some [1000, 1100, 1100] ∧
    spacedOk [1000, 1100, 1100] = false := by
  refine ⟨?_, ?_⟩ <;> decide

/-- C6 amended: the rate limiter paces sequential lookups.  When each
call to the throttled fetch runs to its outbound request before the
next call begins (a suspended caller resuming at its wake time), every
two consecutive outbound requests — including the first relative to the
prior value of the shared clock — are at least the minimum interval
apart.  Overlapping callers, which read the shared clock before any of
them updates it, can issue closer together (see the burst
counterexample). -/
theorem throttledFetch_sequential_spacing :
    ∀ (g : Int) (ts : List Int), spacedOk (g :: seqThrottleRun g ts) = true := by
  intro g ts
  induction ts generalizing g with
  | nil => rfl
  | cons t ts ih =>
      show spacedOk (g :: seqThrottleRun g (t :: ts)) = true
      rw [seqThrottleRun]
      by_cases h : t - g < MIN_REQUEST_INTERVAL
      · simp only [h, if_true]
        rw [spacedOk]
        refine (Bool.and_eq_true _ _).mpr ⟨?_, ih (g + MIN_REQUEST_INTERVAL)⟩
        simp
      · simp only [h, if_false]
        rw [spacedOk]
        refine (Bool.and_eq_true _ _).mpr ⟨?_, ih t⟩
        simp only [decide_eq_true_eq]
        omega
